import Mathlib

/-!
Verification development for the EPUB chapter-splitter application (`app.py`).

Text is modelled as `List Char`.  The Python regular expression
`(?m)^(第\d+章.*)$` matches exactly the full lines whose text begins with
the literal 第, one or more decimal digits, and the literal 章 (with `.`
never crossing a newline, the match always extends to the end of the line,
and `^`/`$` anchor at newline boundaries).  `re.split` with this single
capture group is therefore modelled line by line: the input is split on
newline characters, marker lines become the odd-indexed elements of the
result, and the runs of non-marker lines (together with the newline
characters adjacent to the markers) become the even-indexed elements.
-/

/-- Replace the head of a list of strings, leaving the tail unchanged. -/
def mapHead (f : List Char → List Char) : List (List Char) → List (List Char)
  | [] => []
  | h :: t => f h :: t

/-- Split a character list at every newline, like Python `str.split("\n")`:
the result is always non-empty and joining it back with newlines restores
the input. -/
def splitOnNl : List Char → List (List Char)
  | [] => [[]]
  | c :: cs => if c = '\n' then [] :: splitOnNl cs else mapHead (fun l => c :: l) (splitOnNl cs)

/-- Join a list of lines with newline separators (inverse of `splitOnNl`). -/
def joinLines : List (List Char) → List Char
  | [] => []
  | [l] => l
  | l :: l2 :: rest => l ++ '\n' :: joinLines (l2 :: rest)

/-- The Unicode decimal-digit ranges (general category Nd, Unicode 15.0,
the database shipped with CPython 3.12): on a `str` pattern Python's `\d`
matches exactly these characters — ASCII digits, Arabic-Indic digits,
fullwidth digits (e.g. １ U+FF11), and every other decimal-digit block. -/
def ndRanges : List (Nat × Nat) :=
  [(0x30, 0x39), (0x660, 0x669), (0x6F0, 0x6F9), (0x7C0, 0x7C9),
   (0x966, 0x96F), (0x9E6, 0x9EF), (0xA66, 0xA6F), (0xAE6, 0xAEF),
   (0xB66, 0xB6F), (0xBE6, 0xBEF), (0xC66, 0xC6F), (0xCE6, 0xCEF),
   (0xD66, 0xD6F), (0xDE6, 0xDEF), (0xE50, 0xE59), (0xED0, 0xED9),
   (0xF20, 0xF29), (0x1040, 0x1049), (0x1090, 0x1099), (0x17E0, 0x17E9),
   (0x1810, 0x1819), (0x1946, 0x194F), (0x19D0, 0x19D9), (0x1A80, 0x1A89),
   (0x1A90, 0x1A99), (0x1B50, 0x1B59), (0x1BB0, 0x1BB9), (0x1C40, 0x1C49),
   (0x1C50, 0x1C59), (0xA620, 0xA629), (0xA8D0, 0xA8D9), (0xA900, 0xA909),
   (0xA9D0, 0xA9D9), (0xA9F0, 0xA9F9), (0xAA50, 0xAA59), (0xABF0, 0xABF9),
   (0xFF10, 0xFF19), (0x104A0, 0x104A9), (0x10D30, 0x10D39),
   (0x11066, 0x1106F), (0x110F0, 0x110F9), (0x11136, 0x1113F),
   (0x111D0, 0x111D9), (0x112F0, 0x112F9), (0x11450, 0x11459),
   (0x114D0, 0x114D9), (0x11650, 0x11659), (0x116C0, 0x116C9),
   (0x11730, 0x11739), (0x118E0, 0x118E9), (0x11950, 0x11959),
   (0x11C50, 0x11C59), (0x11D50, 0x11D59), (0x11DA0, 0x11DA9),
   (0x11F50, 0x11F59), (0x16A60, 0x16A69), (0x16AC0, 0x16AC9),
   (0x16B50, 0x16B59), (0x1D7CE, 0x1D7FF), (0x1E140, 0x1E149),
   (0x1E2F0, 0x1E2F9), (0x1E4F0, 0x1E4F9), (0x1E950, 0x1E959),
   (0x1FBF0, 0x1FBF9)]

/-- Python regex `\d` on a `str` pattern: any Unicode decimal digit
(category Nd), not only ASCII `0`-`9`. -/
def isPyDigit (c : Char) : Bool :=
  ndRanges.any (fun r => decide (r.1 ≤ c.toNat ∧ c.toNat ≤ r.2))

/-- After the leading 第, Python `\d+章` consumes one or more Unicode
decimal digits and then requires the literal 章. -/
def digitsThenZhang : List Char → Bool
  | [] => false
  | c :: cs => if c = '章' then true else isPyDigit c && digitsThenZhang cs

/-- A line matches the marker pattern `第\d+章.*` (as used both by
`re.split(r'(?m)^(第\d+章.*)$', ...)` on full lines and by
`re.match(r"第\d+章", heading)`): it begins with 第, then one or more
Unicode decimal digits, then 章; the rest of the line is arbitrary. -/
def isMarker : List Char → Bool
  | '第' :: c :: cs => isPyDigit c && digitsThenZhang cs
  | _ => false

/-- Python `str.strip()` whitespace: the characters for which
`str.isspace()` holds in CPython — 0x09-0x0D, the separator controls
0x1C-0x1F, space, NEL 0x85, NBSP 0xA0, Ogham space mark 0x1680, the
0x2000-0x200A spaces, line/paragraph separators 0x2028/0x2029, narrow
NBSP 0x202F, medium mathematical space 0x205F, and the ideographic space
0x3000 standard in CJK text. -/
def isPySpace (c : Char) : Bool :=
  decide (0x09 ≤ c.toNat ∧ c.toNat ≤ 0x0D) ||
    decide (0x1C ≤ c.toNat ∧ c.toNat ≤ 0x1F) ||
    decide (c.toNat = 0x20) || decide (c.toNat = 0x85) ||
    decide (c.toNat = 0xA0) || decide (c.toNat = 0x1680) ||
    decide (0x2000 ≤ c.toNat ∧ c.toNat ≤ 0x200A) ||
    decide (c.toNat = 0x2028) || decide (c.toNat = 0x2029) ||
    decide (c.toNat = 0x202F) || decide (c.toNat = 0x205F) ||
    decide (c.toNat = 0x3000)

/-- Python `str.strip()`: drop leading and trailing whitespace. -/
def strip (s : List Char) : List Char :=
  ((s.dropWhile isPySpace).reverse.dropWhile isPySpace).reverse

/-- Model of `re.split(r'(?m)^(第\d+章.*)$', text)` on the line
decomposition of `text`: marker lines are kept (the capture group) at odd
positions; the separating material, newlines included, forms the even
positions.  The result always alternates chunk, marker, chunk, ..., chunk
and has odd length. -/
def resplitLines : List (List Char) → List (List Char)
  | [] => [[]]
  | [l] => if isMarker l then [[], l, []] else [l]
  | l :: l2 :: rest =>
    if isMarker l then
      [] :: l :: mapHead (fun c => '\n' :: c) (resplitLines (l2 :: rest))
    else
      mapHead (fun c => l ++ '\n' :: c) (resplitLines (l2 :: rest))

/-- `re.split(r'(?m)^(第\d+章.*)$', text)` from `app.py` line 36. -/
def reSplit (text : List Char) : List (List Char) :=
  resplitLines (splitOnNl text)

/-- The loop `for i in range(1, len(parts), 2)` of `split_into_chapters`
applied to `parts[1:]`: headings (stripped) are paired with the following
content element, the guard `i+1 < len(parts)` supplying `""` for a
trailing unpaired heading. -/
def pairUp : List (List Char) → List (List Char × List Char)
  | [] => []
  | [h] => [(strip h, [])]
  | h :: c :: rest => (strip h, c) :: pairUp rest

/-- `split_into_chapters` from `app.py` lines 28-50: split on the marker
pattern, emit an ("Intro", leading text) record when the part before the
first marker is not all whitespace, then pair headings with contents. -/
def split_into_chapters (text : List Char) : List (List Char × List Char) :=
  let parts := reSplit text
  (if strip (parts.headD []) = [] then [] else [("Intro".data, parts.headD [])])
    ++ pairUp (parts.drop 1)

/-- One generated section of the output book: title metadata, file name,
and serialized XHTML content (`epub.EpubHtml` in `app.py`). -/
structure OutputSection where
  title : List Char
  fileName : List Char
  content : List Char
  deriving DecidableEq

/-- One entry of the output spine: the `'nav'` string literal or a section. -/
inductive SpineEntry where
  | nav : SpineEntry
  | sec : OutputSection → SpineEntry
  deriving DecidableEq

/-- Decimal rendering of a natural number, as Python `f"{idx}"`. -/
def natDigits (n : Nat) : List Char := Nat.toDigits 10 n

/-- `content.replace("\n", "</p><p>")` from `app.py` line 64. -/
def replaceNl : List Char → List Char
  | [] => []
  | c :: cs => if c = '\n' then "</p><p>".data ++ replaceNl cs else c :: replaceNl cs

/-- One iteration of the loop in `create_new_epub` (`app.py` lines 59-67):
title falls back to `f"Chapter {idx}"` unless the heading matches
`re.match(r"第\d+章", heading)`; the content wraps the heading in `<h1>`
and the body in paragraph tags with every newline replaced by
`</p><p>`. -/
def mkSection (idx : Nat) (heading content : List Char) : OutputSection :=
  { title := if isMarker heading then heading else "Chapter ".data ++ natDigits idx
    fileName := "chap_".data ++ natDigits idx ++ ".xhtml".data
    content := "<h1>".data ++ heading ++ "</h1>\n<p>".data ++ replaceNl content ++ "</p>".data }

/-- The `for idx, (heading, content) in enumerate(chapters)` loop of
`create_new_epub`, carrying the running index. -/
def buildSections : Nat → List (List Char × List Char) → List OutputSection
  | _, [] => []
  | idx, (h, c) :: rest => mkSection idx h c :: buildSections (idx + 1) rest

/-- The output book assembled by `create_new_epub`: constant title and
author, the generated sections, `book.toc = tuple(epub_chapters)` and
`book.spine = ['nav'] + epub_chapters`. -/
structure NewBook where
  title : List Char
  authors : List (List Char)
  sections : List OutputSection
  toc : List OutputSection
  spine : List SpineEntry
  deriving DecidableEq

/-- `create_new_epub` from `app.py` lines 52-81 (the parts visible in the
returned book: metadata, sections, toc, spine). -/
def create_new_epub (chapters : List (List Char × List Char)) : NewBook :=
  let secs := buildSections 0 chapters
  { title := "New EPUB with Chapters".data
    authors := ["Auto-generated".data]
    sections := secs
    toc := secs
    spine := SpineEntry.nav :: secs.map SpineEntry.sec }

/-- A parsed markup node, the shape `BeautifulSoup` exposes: text nodes
and elements with children. -/
inductive Node where
  | text : List Char → Node
  | elem : List Char → List Node → Node

mutual

/-- All text-node strings of a node, in document order. -/
def collectTexts : Node → List (List Char)
  | Node.text s => [s]
  | Node.elem _ children => collectTextsList children

/-- All text-node strings of a forest, in document order. -/
def collectTextsList : List Node → List (List Char)
  | [] => []
  | n :: ns => collectTexts n ++ collectTextsList ns

end

/-- `soup.get_text(separator="\n")`: every text node's string, joined with
one newline between consecutive strings. -/
def getText (n : Node) : List Char := joinLines (collectTexts n)

/-- The `ebooklib` item-type constants (`ITEM_DOCUMENT`, `ITEM_IMAGE`, ...)
that `item.get_type()` returns. -/
inductive ItemType where
  | document | image | style | navigation | other
  deriving DecidableEq

/-- The two kinds of Python value compared on `app.py` line 21: the
integer item-type constant returned by `get_type()`, and the class object
`epub.EpubHtml`.  Values of different kinds are never equal in Python. -/
inductive PyTypeVal where
  | itemTypeConst : ItemType → PyTypeVal
  | classEpubHtml : PyTypeVal
  deriving DecidableEq

/-- One content item of the source book, with its parsed body. -/
structure EpubItem where
  itemType : ItemType
  body : Node

/-- `item.get_type()`: the item-type constant of the item. -/
def EpubItem.get_type (it : EpubItem) : PyTypeVal :=
  PyTypeVal.itemTypeConst it.itemType

/-- The source book as `epub.read_epub` exposes it: optional metadata
fields and the content items in manifest order. -/
structure SourceBook where
  title : Option (List Char)
  language : Option (List Char)
  identifier : Option (List Char)
  authors : List (List Char)
  items : List EpubItem

/-- `extract_text_from_epub` from `app.py` lines 15-26: walk the items and
append `get_text` output plus a newline for every item whose `get_type()`
equals the class object `epub.EpubHtml`. -/
def extract_text_from_epub (book : SourceBook) : List Char :=
  book.items.foldl
    (fun acc it =>
      if it.get_type = PyTypeVal.classEpubHtml then acc ++ getText it.body ++ ['\n'] else acc)
    []

/-- The top-level flow of `app.py` lines 83-106: extract, reject
whitespace-only text, otherwise split and rebuild. -/
def app_flow (src : SourceBook) : Option NewBook :=
  let full_text := extract_text_from_epub src
  if strip full_text = [] then none
  else some (create_new_epub (split_into_chapters full_text))

/-- Concatenation of a list of strings (used to state reconstruction
properties about the split parts). -/
def joinParts : List (List Char) → List Char
  | [] => []
  | p :: ps => p ++ joinParts ps

/-- Concatenation of the body components of chapter records. -/
def joinBodies (recs : List (List Char × List Char)) : List Char :=
  joinParts (recs.map Prod.snd)

/-- Concatenation of chapter records where marker headings are replayed in
front of their bodies (the synthesized "Intro" heading is not part of the
original text and is skipped). -/
def joinRecords : List (List Char × List Char) → List Char
  | [] => []
  | (h, b) :: rest => (if isMarker h then h ++ b else b) ++ joinRecords rest

/-- Paragraph-joining of a list of lines: the lines separated by
`</p><p>`, so that wrapping the result in `<p>`/`</p>` gives one paragraph
element per line. -/
def joinParas : List (List Char) → List Char
  | [] => []
  | [l] => l
  | l :: l2 :: rest => l ++ "</p><p>".data ++ joinParas (l2 :: rest)

/-- Whether the string contains the empty paragraph element `<p></p>` as a
contiguous substring. -/
def hasEmptyPara : List Char → Bool
  | [] => false
  | c :: t => "<p></p>".data.isPrefixOf (c :: t) || hasEmptyPara t

/-- The alternation invariant of the tail of a `re.split` result with one
capture group: marker, chunk, marker, chunk, ... (even length). -/
inductive AltTail : List (List Char) → Prop
  | nil : AltTail []
  | cons (m c : List Char) (rest : List (List Char)) :
      isMarker m = true → AltTail rest → AltTail (m :: c :: rest)

/-- A concrete source item: one document part whose markup body renders to
the non-whitespace text "hello world". -/
def demoItem : EpubItem :=
  { itemType := ItemType.document
    body := Node.elem "body".data [Node.text "hello world".data] }

/-- A concrete source book with every metadata field present and one
document item. -/
def demoBook : SourceBook :=
  { title := some "My Title".data
    language := some "en".data
    identifier := some "id1".data
    authors := ["A. Author".data]
    items := [demoItem] }

/-- The end-to-end example input from the specification. -/
def exText : List Char :=
  "intro text\n第1章 标题\nbody one\nbody two\n第2章\nbody three".data

theorem mapHead_length (f : List Char → List Char) (l : List (List Char)) :
    (mapHead f l).length = l.length := by
  cases l <;> rfl

theorem splitOnNl_ne_nil (text : List Char) : splitOnNl text ≠ [] := by
  induction text with
  | nil => simp [splitOnNl]
  | cons c cs ih =>
    by_cases hc : c = '\n'
    · simp [splitOnNl, hc]
    · cases hS : splitOnNl cs with
      | nil => exact absurd hS ih
      | cons s0 ss => simp [splitOnNl, hc, hS, mapHead]

theorem joinLines_cons_cons (c : Char) (s : List Char) (ss : List (List Char)) :
    joinLines ((c :: s) :: ss) = c :: joinLines (s :: ss) := by
  cases ss <;> simp [joinLines]

theorem joinLines_splitOnNl (text : List Char) : joinLines (splitOnNl text) = text := by
  induction text with
  | nil => rfl
  | cons c cs ih =>
    cases hS : splitOnNl cs with
    | nil => exact absurd hS (splitOnNl_ne_nil cs)
    | cons s0 ss =>
      rw [hS] at ih
      by_cases hc : c = '\n'
      · subst hc
        simp only [splitOnNl, if_pos rfl, hS]
        simp [joinLines, ih]
      · simp only [splitOnNl, if_neg hc, hS, mapHead, joinLines_cons_cons, ih]

theorem resplitLines_ne_nil (ls : List (List Char)) : resplitLines ls ≠ [] := by
  induction ls with
  | nil => simp [resplitLines]
  | cons l ls ih =>
    cases ls with
    | nil => by_cases hl : isMarker l <;> simp [resplitLines, hl]
    | cons l2 rest =>
      cases hT : resplitLines (l2 :: rest) with
      | nil => exact absurd hT ih
      | cons t0 ts =>
        by_cases hl : isMarker l <;> simp [resplitLines, hl, hT, mapHead]

theorem resplitLines_length_odd (ls : List (List Char)) :
    (resplitLines ls).length % 2 = 1 := by
  induction ls with
  | nil => rfl
  | cons l ls ih =>
    cases ls with
    | nil => by_cases hl : isMarker l <;> simp [resplitLines, hl]
    | cons l2 rest =>
      by_cases hl : isMarker l
      · simp only [resplitLines, if_pos hl, List.length_cons, mapHead_length]
        omega
      · simpa only [resplitLines, if_neg hl, mapHead_length] using ih

theorem joinParts_resplitLines (ls : List (List Char)) :
    joinParts (resplitLines ls) = joinLines ls := by
  induction ls with
  | nil => rfl
  | cons l ls ih =>
    cases ls with
    | nil =>
      by_cases hl : isMarker l <;> simp [resplitLines, hl, joinParts, joinLines]
    | cons l2 rest =>
      cases hT : resplitLines (l2 :: rest) with
      | nil => exact absurd hT (resplitLines_ne_nil _)
      | cons t0 ts =>
        rw [hT] at ih
        by_cases hl : isMarker l
        · simp [resplitLines, hl, hT, mapHead, joinParts, joinLines, ih.symm,
            List.append_assoc]
        · simp [resplitLines, hl, hT, mapHead, joinParts, joinLines, ih.symm,
            List.append_assoc]

theorem reSplit_ne_nil (text : List Char) : reSplit text ≠ [] :=
  resplitLines_ne_nil _

theorem joinParts_reSplit (text : List Char) : joinParts (reSplit text) = text := by
  rw [reSplit, joinParts_resplitLines, joinLines_splitOnNl]

theorem altTail_resplitLines_tail (ls : List (List Char)) :
    AltTail ((resplitLines ls).tail) := by
  induction ls with
  | nil => exact AltTail.nil
  | cons l ls ih =>
    cases ls with
    | nil =>
      by_cases hl : isMarker l
      · simpa [resplitLines, hl] using AltTail.cons l [] [] hl AltTail.nil
      · simp [resplitLines, hl]
        exact AltTail.nil
    | cons l2 rest =>
      cases hT : resplitLines (l2 :: rest) with
      | nil => exact absurd hT (resplitLines_ne_nil _)
      | cons t0 ts =>
        rw [hT] at ih
        by_cases hl : isMarker l
        · simp only [resplitLines, if_pos hl, hT, mapHead, List.tail_cons]
          exact AltTail.cons l ('\n' :: t0) ts hl ih
        · simpa only [resplitLines, if_neg hl, hT, mapHead, List.tail_cons] using ih

theorem joinRecords_pairUp (ps : List (List Char)) (hAlt : AltTail ps) :
    (∀ p ∈ ps, isMarker p = true → strip p = p) →
    joinRecords (pairUp ps) = joinParts ps := by
  induction hAlt with
  | nil => intro _; rfl
  | cons m c rest hmk _ ih =>
    intro hm
    have hsm : strip m = m := hm m (by simp) hmk
    have ihr : joinRecords (pairUp rest) = joinParts rest :=
      ih (fun p hp hmp => hm p (by simp [hp]) hmp)
    simp [pairUp, joinRecords, hsm, hmk, joinParts, ihr, List.append_assoc]

theorem pairUp_headings (ls : List (List Char)) :
    (pairUp ((resplitLines ls).tail)).map Prod.fst
      = (ls.filter (fun l => isMarker l)).map strip := by
  induction ls with
  | nil => rfl
  | cons l ls ih =>
    cases ls with
    | nil =>
      by_cases hl : isMarker l <;> simp [resplitLines, hl, pairUp]
    | cons l2 rest =>
      cases hT : resplitLines (l2 :: rest) with
      | nil => exact absurd hT (resplitLines_ne_nil _)
      | cons t0 ts =>
        rw [hT] at ih
        simp only [List.tail_cons] at ih
        by_cases hl : isMarker l
        · have h1 : (resplitLines (l :: l2 :: rest)).tail = l :: ('\n' :: t0) :: ts := by
            simp [resplitLines, hl, hT, mapHead]
          rw [h1]
          simp only [pairUp, List.map_cons]
          rw [ih]
          simp [List.filter_cons, hl]
        · have h1 : (resplitLines (l :: l2 :: rest)).tail = ts := by
            simp [resplitLines, hl, hT, mapHead]
          rw [h1, ih]
          simp [List.filter_cons, hl]

theorem resplitLines_no_marker (ls : List (List Char))
    (h : ∀ l ∈ ls, isMarker l = false) :
    resplitLines ls = [joinLines ls] := by
  induction ls with
  | nil => rfl
  | cons l ls ih =>
    have hl : isMarker l = false := h l (by simp)
    cases ls with
    | nil => simp [resplitLines, hl, joinLines]
    | cons l2 rest =>
      have ihr : resplitLines (l2 :: rest) = [joinLines (l2 :: rest)] :=
        ih (fun x hx => h x (by simp [hx]))
      simp [resplitLines, hl, ihr, mapHead, joinLines]

example : split_into_chapters "intro\n第1章 x\nbody".data =
    [("Intro".data, "intro\n".data), ("第1章 x".data, "\nbody".data)] := by decide

example : split_into_chapters "第1章".data = [("第1章".data, [])] := by decide

example : split_into_chapters "".data = [] := by decide

example : isMarker "第12章 hello".data = true := by decide

example : isMarker " 第1章".data = false := by decide

example : isMarker "第１章x".data = true := by decide

example : strip "　".data = [] := by decide

example : split_into_chapters "　\n第1章\nbody".data
    = [("第1章".data, "\nbody".data)] := by decide

example : split_into_chapters "第１章x\ny".data
    = [("第１章x".data, "\ny".data)] := by decide

theorem split_into_chapters_eq (text : List Char) (p0 : List Char)
    (rest : List (List Char)) (hP : reSplit text = p0 :: rest) :
    split_into_chapters text
      = (if strip p0 = [] then [] else [("Intro".data, p0)]) ++ pairUp rest := by
  simp [split_into_chapters, hP]

/-- C1: the claim as stated is false.  The bodies of the records returned
by `split_into_chapters` omit the matched marker lines (the heading is
stored separately), so concatenating the bodies alone does not reproduce
the input: on "第1章\nbody" the single record's body is "\nbody". -/
theorem C1_counterexample :
    joinBodies (split_into_chapters "第1章\nbody".data) ≠ "第1章\nbody".data := by
  decide

/-- C1 (amended): concatenating, in order, each record's heading line
followed by its body — skipping the synthesized "Intro" heading, whose
record carries the raw leading text as body — reproduces the input
exactly, provided the leading split piece is empty whenever it is all
whitespace (a whitespace-only non-empty leading piece is silently
dropped), and no marker line carries surrounding whitespace (headings are
stripped before being stored). -/
theorem C1_roundtrip_with_headings (text : List Char)
    (h0 : strip ((reSplit text).headD []) = [] → (reSplit text).headD [] = [])
    (hm : ∀ p ∈ reSplit text, isMarker p = true → strip p = p) :
    joinRecords (split_into_chapters text) = text := by
  cases hP : reSplit text with
  | nil => exact absurd hP (reSplit_ne_nil text)
  | cons p0 rest =>
    rw [hP] at h0 hm
    simp only [List.headD_cons] at h0
    have hAlt : AltTail rest := by
      have h := altTail_resplitLines_tail (splitOnNl text)
      rw [show resplitLines (splitOnNl text) = reSplit text from rfl, hP,
        List.tail_cons] at h
      exact h
    have hmr : ∀ p ∈ rest, isMarker p = true → strip p = p :=
      fun p hp => hm p (List.mem_cons_of_mem _ hp)
    have hjoin : p0 ++ joinParts rest = text := by
      have h := joinParts_reSplit text
      rw [hP] at h
      simpa [joinParts] using h
    have hpair : joinRecords (pairUp rest) = joinParts rest :=
      joinRecords_pairUp rest hAlt hmr
    have hIm : isMarker "Intro".data = false := by decide
    rw [split_into_chapters_eq text p0 rest hP]
    by_cases hs : strip p0 = []
    · have hp0 : p0 = [] := h0 hs
      rw [hp0] at hjoin
      simpa [hs, hpair] using hjoin
    · simpa [hs, joinRecords, hIm, hpair, List.append_assoc] using hjoin

/-- C1 witness: the amended round-trip at a concrete input. -/
theorem C1_witness :
    joinRecords (split_into_chapters "intro\n第1章 x\nbody".data)
      = "intro\n第1章 x\nbody".data :=
  C1_roundtrip_with_headings "intro\n第1章 x\nbody".data (by decide) (by decide)

/-- C2: the condition `item.get_type() == epub.EpubHtml` on line 21 of
`app.py` compares an integer item-type constant with a class object, so
it is never true and the extractor returns the empty buffer even for a
book with a document item containing non-whitespace text — contradicting
the function's own docstring ("Extract text from each document item"). -/
theorem C2_extractor_always_empty :
    extract_text_from_epub demoBook = [] ∧
    demoBook.items = [demoItem] ∧
    demoItem.itemType = ItemType.document ∧
    strip (getText demoItem.body) = "hello world".data := by
  exact ⟨by decide, rfl, rfl, by decide⟩

/-- C3: the claim's exact record values are wrong — the code keeps the
newline characters adjacent to the marker lines inside the bodies. -/
theorem C3_counterexample :
    split_into_chapters exText
      ≠ [("Intro".data, "intro text".data),
         ("第1章 标题".data, "body one\nbody two".data),
         ("第2章".data, "body three".data)] := by
  decide

/-- C3 (amended): on the example input the segmenter returns exactly three
records in the documented order, with the documented headings, but with
bodies "intro text\n", "\nbody one\nbody two\n", "\nbody three"; the
rebuilt book has exactly those three sections in order, each `<h1>`
heading matching the record heading, with titles "Chapter 0" (the intro
fallback), "第1章 标题", "第2章". -/
theorem C3_end_to_end :
    split_into_chapters exText
      = [("Intro".data, "intro text\n".data),
         ("第1章 标题".data, "\nbody one\nbody two\n".data),
         ("第2章".data, "\nbody three".data)] ∧
    (create_new_epub (split_into_chapters exText)).sections.map OutputSection.title
      = ["Chapter 0".data, "第1章 标题".data, "第2章".data] ∧
    (create_new_epub (split_into_chapters exText)).sections.map OutputSection.content
      = ["<h1>Intro</h1>\n<p>intro text</p><p></p>".data,
         "<h1>第1章 标题</h1>\n<p></p><p>body one</p><p>body two</p><p></p>".data,
         "<h1>第2章</h1>\n<p></p><p>body three</p>".data] := by
  exact ⟨by decide, by decide, by decide⟩

/-- C4: the claim is false — the rebuilder never copies source metadata.
`demoBook` has every metadata field present, yet the application flow
produces no rebuilt book at all for it (the broken extractor yields an
empty buffer), and `create_new_epub` hard-codes the title regardless of
any source. -/
theorem C4_counterexample :
    demoBook.title = some "My Title".data ∧
    app_flow demoBook = none ∧
    (create_new_epub (split_into_chapters "source text".data)).title
      ≠ "My Title".data := by
  exact ⟨rfl, rfl, by decide⟩

/-- C4 (amended): the rebuilt book's metadata is independent of the
source: its title is always the constant "New EPUB with Chapters" and its
author list is always ["Auto-generated"]; no language or identifier is
copied and no "Untitled" fallback exists. -/
theorem C4_metadata_fixed (chapters : List (List Char × List Char)) :
    (create_new_epub chapters).title = "New EPUB with Chapters".data ∧
    (create_new_epub chapters).authors = ["Auto-generated".data] :=
  ⟨rfl, rfl⟩

/-- C5: the headings of the records returned by `split_into_chapters` are
exactly the marker lines of the input (stripped), in order, preceded by
the single "Intro" label when non-whitespace leading text exists: every
line-start occurrence of the marker pattern is detected, and text whose
lines do not start with the pattern is never matched as a boundary. -/
theorem C5_marker_headings (text : List Char) :
    (split_into_chapters text).map Prod.fst
      = (if strip ((reSplit text).headD []) = [] then [] else ["Intro".data])
        ++ ((splitOnNl text).filter (fun l => isMarker l)).map strip := by
  cases hP : reSplit text with
  | nil => exact absurd hP (reSplit_ne_nil text)
  | cons p0 rest =>
    have h := pairUp_headings (splitOnNl text)
    rw [show resplitLines (splitOnNl text) = reSplit text from rfl, hP,
      List.tail_cons] at h
    rw [split_into_chapters_eq text p0 rest hP, List.headD_cons]
    by_cases hs : strip p0 = []
    · simp [hs, h]
    · simp [hs, h]

/-- C6: on non-whitespace text containing no marker line, the segmenter
returns the whole buffer as a single record labeled "Intro", without any
failure. -/
theorem C6_no_markers (text : List Char) (hne : strip text ≠ [])
    (hnm : ∀ l ∈ splitOnNl text, isMarker l = false) :
    split_into_chapters text = [("Intro".data, text)] := by
  have hR : reSplit text = [text] := by
    rw [reSplit, resplitLines_no_marker _ hnm, joinLines_splitOnNl]
  rw [split_into_chapters_eq text text [] hR]
  simp [hne, pairUp]

/-- C6 witness: marker-free non-whitespace text at a concrete input. -/
theorem C6_witness :
    split_into_chapters "hello".data = [("Intro".data, "hello".data)] :=
  C6_no_markers "hello".data (by decide) (by decide)

theorem buildSections_enumFrom (n : Nat) (chs : List (List Char × List Char)) :
    buildSections n chs
      = (List.enumFrom n chs).map (fun p => mkSection p.1 p.2.1 p.2.2) := by
  induction chs generalizing n with
  | nil => rfl
  | cons hc rest ih =>
    obtain ⟨h, c⟩ := hc
    simp [buildSections, List.enumFrom, ih]

/-- C7: in every rebuilt book the table of contents is exactly the section
list, the spine is the `'nav'` entry followed by exactly the section list
in the same order, and the sections are the chapter records in order (the
i-th section is generated from the i-th record with index i). -/
theorem C7_toc_spine_order (chapters : List (List Char × List Char)) :
    (create_new_epub chapters).toc = (create_new_epub chapters).sections ∧
    (create_new_epub chapters).spine
      = SpineEntry.nav :: (create_new_epub chapters).sections.map SpineEntry.sec ∧
    (create_new_epub chapters).sections
      = (List.enum chapters).map (fun p => mkSection p.1 p.2.1 p.2.2) := by
  exact ⟨rfl, rfl, buildSections_enumFrom 0 chapters⟩

theorem joinParas_cons_cons (c : Char) (s : List Char) (ss : List (List Char)) :
    joinParas ((c :: s) :: ss) = c :: joinParas (s :: ss) := by
  cases ss <;> simp [joinParas]

theorem replaceNl_eq_joinParas (content : List Char) :
    replaceNl content = joinParas (splitOnNl content) := by
  induction content with
  | nil => rfl
  | cons c cs ih =>
    cases hS : splitOnNl cs with
    | nil => exact absurd hS (splitOnNl_ne_nil cs)
    | cons s0 ss =>
      rw [hS] at ih
      by_cases hc : c = '\n'
      · subst hc
        simp only [replaceNl, if_pos rfl, splitOnNl, hS, ih]
        simp [joinParas]
      · simp only [replaceNl, if_neg hc, splitOnNl, hS, mapHead, joinParas_cons_cons, ih]

/-- C8: the claim is false — the generated markup does not collapse blank
lines.  On the body "a\n\nb" the section content contains the empty
paragraph element `<p></p>`. -/
theorem C8_counterexample :
    hasEmptyPara (mkSection 0 "第1章".data "a\n\nb".data).content = true := by
  decide

/-- C8 (amended): the generated section content wraps every line of the
body — empty lines included — in its own paragraph element: the paragraph
list is exactly the newline-split of the body, so consecutive blank lines
yield empty paragraph elements rather than being collapsed. -/
theorem C8_each_line_one_paragraph (idx : Nat) (heading content : List Char) :
    (mkSection idx heading content).content
      = "<h1>".data ++ heading ++ "</h1>\n<p>".data
        ++ joinParas (splitOnNl content) ++ "</p>".data := by
  simp [mkSection, replaceNl_eq_joinParas]

/-- C9: the claim is false in its labeling part — the intro record is
placed first with heading "Intro", but its output section's title falls
back to "Chapter 0", a numbered chapter label, because "Intro" does not
match the marker pattern. -/
theorem C9_counterexample :
    (split_into_chapters "intro\n第1章\nbody".data).head?
        = some ("Intro".data, "intro\n".data) ∧
    ((create_new_epub (split_into_chapters "intro\n第1章\nbody".data)).sections.map
        OutputSection.title).head? = some "Chapter 0".data := by
  exact ⟨by decide, by decide⟩

/-- C9 (amended): whenever the text before the first marker is not all
whitespace, the first record is ("Intro", leading text), placed before all
matched chapters; its output section carries the heading "Intro" in the
body but is titled with the numbered fallback "Chapter 0". -/
theorem C9_intro_record (text : List Char)
    (hintro : strip ((reSplit text).headD []) ≠ []) :
    (split_into_chapters text).head? = some ("Intro".data, (reSplit text).headD []) ∧
    ((create_new_epub (split_into_chapters text)).sections.map OutputSection.title).head?
      = some "Chapter 0".data := by
  cases hP : reSplit text with
  | nil => exact absurd hP (reSplit_ne_nil text)
  | cons p0 rest =>
    rw [hP, List.headD_cons] at hintro
    have hIm : isMarker "Intro".data = false := by decide
    rw [split_into_chapters_eq text p0 rest hP, List.headD_cons, if_neg hintro]
    refine ⟨by simp, ?_⟩
    simp only [List.cons_append, List.nil_append, create_new_epub, buildSections,
      mkSection, hIm, Bool.false_eq_true, if_false, List.map_cons, List.head?_cons,
      Option.some.injEq]
    decide

/-- C9 witness: the amended statement at a concrete input. -/
theorem C9_witness :
    (split_into_chapters "intro text\n第1章\nx".data).head?
        = some ("Intro".data, (reSplit "intro text\n第1章\nx".data).headD []) ∧
    ((create_new_epub (split_into_chapters "intro text\n第1章\nx".data)).sections.map
        OutputSection.title).head? = some "Chapter 0".data :=
  C9_intro_record "intro text\n第1章\nx".data (by decide)

/-- C10: for every input the split result is non-empty (so the `parts[0]`
access is safe) and has odd length, so for every odd index i in range —
the heading positions visited by the loop — the content index i+1 is also
in range, and the function is total. -/
theorem C10_split_safety (text : List Char) :
    reSplit text ≠ [] ∧ (reSplit text).length % 2 = 1 ∧
      ∀ i, i % 2 = 1 → i < (reSplit text).length → i + 1 < (reSplit text).length := by
  have h : (reSplit text).length % 2 = 1 := resplitLines_length_odd (splitOnNl text)
  refine ⟨reSplit_ne_nil text, h, ?_⟩
  intro i hi hlt
  omega

/-- C10 witness: index safety at a concrete input with one marker. -/
theorem C10_witness :
    1 + 1 < (reSplit "第1章\nbody".data).length :=
  (C10_split_safety "第1章\nbody".data).2.2 1 (by decide) (by decide)

